import Mathlib

/-!
Verification of the band-depth computation engine (`n2n4m/summary_parameters.py`)
and the sliding-window denoising filters of the n2n4m repository.

Real numbers are modelled by `ℚ`. Values produced by numpy array arithmetic are
modelled by `NpVal`, which adds the non-finite IEEE values (positive infinity,
negative infinity, NaN) to the rationals. Python exceptions (`ValueError` from
`list.index`, `ZeroDivisionError` from float division) are modelled with
`Except String`.
-/

set_option maxRecDepth 4000

/-- Equality of `Except` values is decidable when it is on both components. -/
instance {ε α : Type} [DecidableEq ε] [DecidableEq α] : DecidableEq (Except ε α) := fun a b =>
  match a, b with
  | .ok x, .ok y => if h : x = y then .isTrue (by rw [h]) else .isFalse (by simp [h])
  | .error x, .error y => if h : x = y then .isTrue (by rw [h]) else .isFalse (by simp [h])
  | .ok _, .error _ => .isFalse (by simp)
  | .error _, .ok _ => .isFalse (by simp)

/-- A value produced by numpy floating-point arithmetic: either a finite number
(modelled exactly by a rational) or one of the non-finite IEEE values. -/
inductive NpVal where
  | num (q : ℚ)
  | inf
  | negInf
  | nan
deriving DecidableEq

/-- numpy multiplication of a finite scalar with an array element
(`a * ref` inside `interpolated_center_wavelength_reflectance`):
NaN absorbs everything, `0 * ±inf` is NaN, otherwise signs multiply. -/
def NpVal.smul (a : ℚ) : NpVal → NpVal
  | .num x => .num (a * x)
  | .nan => .nan
  | .inf => if 0 < a then .inf else if a < 0 then .negInf else .nan
  | .negInf => if 0 < a then .negInf else if a < 0 then .inf else .nan

/-- numpy addition of two array elements: NaN absorbs, `inf + (-inf)` is NaN. -/
def NpVal.add : NpVal → NpVal → NpVal
  | .nan, _ => .nan
  | _, .nan => .nan
  | .num x, .num y => .num (x + y)
  | .num _, .inf => .inf
  | .num _, .negInf => .negInf
  | .inf, .num _ => .inf
  | .inf, .inf => .inf
  | .inf, .negInf => .nan
  | .negInf, .num _ => .negInf
  | .negInf, .inf => .nan
  | .negInf, .negInf => .negInf

/-- numpy subtraction of two array elements (used for `1 - band_depth`):
NaN absorbs, `inf - inf` is NaN. -/
def NpVal.sub : NpVal → NpVal → NpVal
  | .nan, _ => .nan
  | _, .nan => .nan
  | .num x, .num y => .num (x - y)
  | .num _, .inf => .negInf
  | .num _, .negInf => .inf
  | .inf, .num _ => .inf
  | .inf, .inf => .nan
  | .inf, .negInf => .inf
  | .negInf, .num _ => .negInf
  | .negInf, .inf => .negInf
  | .negInf, .negInf => .nan

/-- numpy elementwise division: division of a finite value by zero yields
`inf`, `-inf` or `nan` according to the sign of the numerator (a warning is
emitted but no exception is raised); NaN absorbs; `±inf / ±inf` is NaN. -/
def NpVal.div : NpVal → NpVal → NpVal
  | .nan, _ => .nan
  | _, .nan => .nan
  | .num x, .num y =>
      if y = 0 then (if x = 0 then .nan else if 0 < x then .inf else .negInf)
      else .num (x / y)
  | .num _, .inf => .num 0
  | .num _, .negInf => .num 0
  | .inf, .num y => if 0 ≤ y then .inf else .negInf
  | .inf, .inf => .nan
  | .inf, .negInf => .nan
  | .negInf, .num y => if 0 ≤ y then .negInf else .inf
  | .negInf, .inf => .nan
  | .negInf, .negInf => .nan

/-- numpy strict comparison (used by the mask `bd[bd < 0] = 0`):
any comparison with NaN is false. -/
def NpVal.lt : NpVal → NpVal → Bool
  | .nan, _ => false
  | _, .nan => false
  | .num x, .num y => decide (x < y)
  | .num _, .inf => true
  | .num _, .negInf => false
  | .inf, .inf => false
  | .inf, .num _ => false
  | .inf, .negInf => false
  | .negInf, .negInf => false
  | .negInf, .num _ => true
  | .negInf, .inf => true

/-- `x >= 0` in IEEE terms: true for finite nonnegative values and `inf`,
false for negative values, `-inf` and NaN. -/
def NpVal.isNonneg : NpVal → Bool
  | .num q => decide (0 ≤ q)
  | .inf => true
  | .negInf => false
  | .nan => false

/-- Insert a rational into a sorted list, keeping it sorted. -/
def insertLe (x : ℚ) : List ℚ → List ℚ
  | [] => [x]
  | y :: ys => if x ≤ y then x :: y :: ys else y :: insertLe x ys

/-- Insertion sort of a list of rationals (ascending), used to model the sort
performed inside `np.median`. -/
def sortQ : List ℚ → List ℚ
  | [] => []
  | x :: xs => insertLe x (sortQ xs)

/-- The median of a nonempty list of rationals as computed by `np.median`:
sort; for odd length take the middle element, for even length average the two
middle elements. (Returns `0` on the empty list; `npMedian` maps that case to
NaN instead, matching numpy.) -/
def medianQ (xs : List ℚ) : ℚ :=
  let s := sortQ xs
  let n := s.length
  if n % 2 = 1 then s.getD (n / 2) 0
  else (s.getD (n / 2 - 1) 0 + s.getD (n / 2) 0) / 2

/-- `np.median` of a window of finite reflectance values: NaN on an empty
window (numpy emits a warning and returns NaN), otherwise the exact median. -/
def npMedian (xs : List ℚ) : NpVal :=
  if xs.isEmpty then NpVal.nan else NpVal.num (medianQ xs)

/-- Python/numpy basic slice `xs[a:b]` (step 1) with integer bounds:
a negative bound counts from the end of the list (`n + a`), bounds are then
clamped to `[0, n]`, and the selected range is `[start, stop)`. -/
def pySlice (xs : List ℚ) (a b : ℤ) : List ℚ :=
  let n : ℤ := xs.length
  let start := if a < 0 then max (n + a) 0 else min a n
  let stop := if b < 0 then max (n + b) 0 else min b n
  (xs.drop start.toNat).take (stop - start).toNat

/-- Python `list.index`: linear scan returning the position of the first
element equal to the argument, raising `ValueError` when no element matches. -/
def index (xs : List ℚ) (w : ℚ) : Except String ℕ :=
  match xs with
  | [] => .error "ValueError"
  | x :: rest => if x = w then .ok 0 else (index rest w).map (· + 1)

/-- `wavelength_weights` from `summary_parameters.py`:
`b = (center - short) / (long - short)`, `a = 1 - b`. The division is Python
float division, which raises `ZeroDivisionError` when `long == short`. -/
def wavelength_weights (short_wavelength center_wavelength long_wavelength : ℚ) :
    Except String (ℚ × ℚ) :=
  if long_wavelength - short_wavelength = 0 then .error "ZeroDivisionError"
  else
    let b := (center_wavelength - short_wavelength) / (long_wavelength - short_wavelength)
    .ok (1 - b, b)

/-- `interpolated_center_wavelength_reflectance` from `summary_parameters.py`:
elementwise `a * short_ref + b * long_ref` with the weights from
`wavelength_weights` applied to the wavelength triple. -/
def interpolated_center_wavelength_reflectance (short_ref : List NpVal)
    (bd_wavelengths : ℚ × ℚ × ℚ) (long_ref : List NpVal) : Except String (List NpVal) := do
  let w ← wavelength_weights bd_wavelengths.1 bd_wavelengths.2.1 bd_wavelengths.2.2
  return List.zipWith (fun s l => NpVal.add (NpVal.smul w.1 s) (NpVal.smul w.2 l)) short_ref long_ref

/-- `band_depth_calculation` from `summary_parameters.py`: for each of the
three target wavelengths, look up its position with `list.index`, slice the
band axis of every spectrum with `spectra[:, pos - k//2 : pos + k//2 + 1]`
(Python slice semantics) and take `np.median`; then divide the center kernel
reflectance by the continuum interpolated between the short and long kernel
reflectances. -/
def band_depth_calculation (spectra : List (List ℚ)) (all_wavelengths : List ℚ)
    (bd_wavelengths : ℚ × ℚ × ℚ) (kernel_sizes : ℕ × ℕ × ℕ) :
    Except String (List NpVal) := do
  let short_wavelength := bd_wavelengths.1
  let center_wavelength := bd_wavelengths.2.1
  let long_wavelength := bd_wavelengths.2.2
  let h0 := kernel_sizes.1 / 2
  let h1 := kernel_sizes.2.1 / 2
  let h2 := kernel_sizes.2.2 / 2
  let i0 ← index all_wavelengths short_wavelength
  let short_ref := spectra.map fun row =>
    npMedian (pySlice row ((i0 : ℤ) - (h0 : ℤ)) ((i0 : ℤ) + (h0 : ℤ) + 1))
  let i1 ← index all_wavelengths center_wavelength
  let center_ref := spectra.map fun row =>
    npMedian (pySlice row ((i1 : ℤ) - (h1 : ℤ)) ((i1 : ℤ) + (h1 : ℤ) + 1))
  let i2 ← index all_wavelengths long_wavelength
  let long_ref := spectra.map fun row =>
    npMedian (pySlice row ((i2 : ℤ) - (h2 : ℤ)) ((i2 : ℤ) + (h2 : ℤ) + 1))
  let interpolated_center_ref ←
    interpolated_center_wavelength_reflectance short_ref bd_wavelengths long_ref
  return List.zipWith NpVal.div center_ref interpolated_center_ref

/-- The numpy mask assignment `bd[bd < 0] = 0` applied to one element:
replace the element by `0` exactly when it compares strictly below zero
(NaN does not compare below zero and is left in place). -/
def clampVal (x : NpVal) : NpVal :=
  if NpVal.lt x (NpVal.num 0) then NpVal.num 0 else x

/-- The numpy mask assignment `bd[bd < 0] = 0` applied to a whole array. -/
def clampNeg (xs : List NpVal) : List NpVal :=
  xs.map clampVal

/-- The seven (wavelength triple, kernel triple) configurations used by
`hyd_femg_clay_index_calculation`, in source order. -/
def hydConfigs : List ((ℚ × ℚ × ℚ) × (ℕ × ℕ × ℕ)) :=
  [((1.33578, 1.41459, 1.55264), (5, 3, 5)),
   ((1.86212, 1.92146, 2.07985), (5, 5, 5)),
   ((2.15251, 2.28472, 2.34426), (3, 5, 3)),
   ((2.15251, 2.30456, 2.34426), (3, 3, 3)),
   ((2.15251, 2.32441, 2.34426), (3, 3, 3)),
   ((2.34426, 2.38396, 2.4303), (3, 3, 3)),
   ((2.34426, 2.3972, 2.4303), (3, 3, 3))]

/-- `hyd_femg_clay_index_calculation` from `summary_parameters.py`: seven
band-depth evaluations, each turned into `1 - depth`, clamped below at zero by
`bd[bd < 0] = 0`, and summed elementwise. -/
def hyd_femg_clay_index_calculation (spectra : List (List ℚ)) (wavelengths : List ℚ) :
    Except String (List NpVal) := do
  let r14 ← band_depth_calculation spectra wavelengths (1.33578, 1.41459, 1.55264) (5, 3, 5)
  let bd14 := clampNeg (r14.map fun x => NpVal.sub (NpVal.num 1) x)
  let r19 ← band_depth_calculation spectra wavelengths (1.86212, 1.92146, 2.07985) (5, 5, 5)
  let bd19 := clampNeg (r19.map fun x => NpVal.sub (NpVal.num 1) x)
  let r229 ← band_depth_calculation spectra wavelengths (2.15251, 2.28472, 2.34426) (3, 5, 3)
  let bd229 := clampNeg (r229.map fun x => NpVal.sub (NpVal.num 1) x)
  let r231 ← band_depth_calculation spectra wavelengths (2.15251, 2.30456, 2.34426) (3, 3, 3)
  let bd231 := clampNeg (r231.map fun x => NpVal.sub (NpVal.num 1) x)
  let r232 ← band_depth_calculation spectra wavelengths (2.15251, 2.32441, 2.34426) (3, 3, 3)
  let bd232 := clampNeg (r232.map fun x => NpVal.sub (NpVal.num 1) x)
  let r238 ← band_depth_calculation spectra wavelengths (2.34426, 2.38396, 2.4303) (3, 3, 3)
  let bd238 := clampNeg (r238.map fun x => NpVal.sub (NpVal.num 1) x)
  let r240 ← band_depth_calculation spectra wavelengths (2.34426, 2.3972, 2.4303) (3, 3, 3)
  let bd240 := clampNeg (r240.map fun x => NpVal.sub (NpVal.num 1) x)
  return List.zipWith NpVal.add
    (List.zipWith NpVal.add
      (List.zipWith NpVal.add
        (List.zipWith NpVal.add
          (List.zipWith NpVal.add
            (List.zipWith NpVal.add bd14 bd19) bd229) bd231) bd232) bd238) bd240

/-- `true` when the computation did not succeed with an array containing NaN. -/
def noNan (e : Except String (List NpVal)) : Bool :=
  match e with
  | .ok vs => decide (NpVal.nan ∉ vs)
  | .error _ => true

/-- The arithmetic mean of a window, as computed by a moving mean filter. -/
def meanQ (xs : List ℚ) : ℚ :=
  xs.sum / (xs.length : ℚ)

/-- Modelled from the spec: the sliding-window scheme shared by
`moving_median_filter` and `moving_mean_filter` of `n2n4m/cotcat_denoise.py`,
whose source file is absent from src/ (only its tests are present). Every
interior position `i` (those with a full half-window on both sides, i.e.
`window//2 <= i` and `i + window//2 < n`) is replaced by `f` applied to the
inclusive window `[i - window//2, i + window//2]`; edge positions are passed
through unchanged. -/
def slideFilter (f : List ℚ → ℚ) (window : ℕ) (xs : List ℚ) : List ℚ :=
  (List.range xs.length).map fun i =>
    if window / 2 ≤ i ∧ i + window / 2 < xs.length then
      f ((xs.drop (i - window / 2)).take (2 * (window / 2) + 1))
    else xs.getD i 0

/-- Modelled from the spec: `moving_median_filter` of
`n2n4m/cotcat_denoise.py` (absent from src/, only its tests are present).
True sliding-median smoothing applied independently along the band axis of
every (row, column) spectrum of a cube; edge positions unchanged; output
shape equals input shape. -/
def moving_median_filter (cube : List (List (List ℚ))) (window : ℕ) :
    List (List (List ℚ)) :=
  cube.map fun row => row.map fun spectrum => slideFilter medianQ window spectrum

/-- Modelled from the spec: `moving_mean_filter` of `n2n4m/cotcat_denoise.py`
(absent from src/, only its tests are present). Sliding-mean smoothing applied
independently along the band axis of every (row, column) spectrum of a cube;
edge positions unchanged; output shape equals input shape. -/
def moving_mean_filter (cube : List (List (List ℚ))) (window : ℕ) :
    List (List (List ℚ)) :=
  cube.map fun row => row.map fun spectrum => slideFilter meanQ window spectrum

/-- A wavelength grid containing the fourteen wavelengths used by
`hyd_femg_clay_index_calculation`, padded on both ends so that every kernel
window stays inside the grid. -/
def hydGrid : List ℚ :=
  [0.9, 1.0, 1.33578, 1.41459, 1.55264, 1.86212, 1.92146, 2.07985, 2.15251,
   2.28472, 2.30456, 2.32441, 2.34426, 2.38396, 2.3972, 2.4303, 2.5]

/-- A single constant spectrum of seventeen bands, matching `hydGrid`. -/
def hydOnes : List (List ℚ) :=
  [[1, 1, 1, 1, 1, 1, 1, 1, 1, 1, 1, 1, 1, 1, 1, 1, 1]]

lemma except_ok_bind {α β : Type} (a : α) (f : α → Except String β) :
    (Except.ok a >>= f) = f a := rfl

lemma except_error_bind {α β : Type} (e : String) (f : α → Except String β) :
    ((Except.error e : Except String α) >>= f) = Except.error e := rfl

lemma list_map_congr {α β : Type} {f g : α → β} :
    ∀ (l : List α), (∀ a ∈ l, f a = g a) → l.map f = l.map g := by
  intro l
  induction l with
  | nil => intro _; rfl
  | cons a t ih =>
    intro h
    simp only [List.map_cons, h a (List.mem_cons_self a t)]
    rw [ih fun b hb => h b (List.mem_cons_of_mem a hb)]

lemma zipWith_map_same {α β γ δ : Type} (f : β → γ → δ) (g : α → β) (h : α → γ)
    (l : List α) : List.zipWith f (l.map g) (l.map h) = l.map fun x => f (g x) (h x) := by
  induction l with
  | nil => rfl
  | cons a t ih => simp only [List.map_cons, List.zipWith_cons_cons, ih]

lemma mem_zipWith {α β γ : Type} {f : α → β → γ} {c : γ} :
    ∀ {l₁ : List α} {l₂ : List β}, c ∈ List.zipWith f l₁ l₂ →
      ∃ a ∈ l₁, ∃ b ∈ l₂, c = f a b := by
  intro l₁
  induction l₁ with
  | nil => intro l₂ h; simp [List.zipWith] at h
  | cons a t ih =>
    intro l₂ h
    cases l₂ with
    | nil => simp [List.zipWith] at h
    | cons b s =>
      rw [List.zipWith_cons_cons, List.mem_cons] at h
      rcases h with h | h
      · exact ⟨a, List.mem_cons_self a t, b, List.mem_cons_self b s, h⟩
      · obtain ⟨a', ha', b', hb', he⟩ := ih h
        exact ⟨a', List.mem_cons_of_mem a ha', b', List.mem_cons_of_mem b hb', he⟩

lemma pySlice_window (xs : List ℚ) (p h : ℕ) (hp : h ≤ p) (hn : p + h < xs.length) :
    pySlice xs ((p : ℤ) - (h : ℤ)) ((p : ℤ) + (h : ℤ) + 1) =
      (xs.drop (p - h)).take (2 * h + 1) := by
  simp only [pySlice]
  rw [if_neg (by omega), if_neg (by omega), min_eq_left (by omega), min_eq_left (by omega)]
  have e1 : ((p : ℤ) + (h : ℤ) + 1 - ((p : ℤ) - (h : ℤ))).toNat = 2 * h + 1 := by omega
  have e2 : ((p : ℤ) - (h : ℤ)).toNat = p - h := by omega
  rw [e1, e2]

lemma index_of_not_mem {w : ℚ} : ∀ {xs : List ℚ}, w ∉ xs → index xs w = .error "ValueError" := by
  intro xs
  induction xs with
  | nil => intro _; rfl
  | cons x t ih =>
    intro h
    rw [List.mem_cons, not_or] at h
    have hx : ¬ (x = w) := fun he => h.1 he.symm
    simp only [index, if_neg hx]
    rw [ih h.2]
    rfl

lemma index_of_mem {w : ℚ} : ∀ {xs : List ℚ}, w ∈ xs → ∃ i, index xs w = .ok i := by
  intro xs
  induction xs with
  | nil => intro h; exact absurd h (List.not_mem_nil w)
  | cons x t ih =>
    intro h
    by_cases hx : x = w
    · exact ⟨0, by simp [index, hx]⟩
    · rw [List.mem_cons] at h
      rcases h with h | h
      · exact absurd h.symm hx
      · obtain ⟨i, hi⟩ := ih h
        exact ⟨i + 1, by simp [index, hx, hi, Except.map]⟩

lemma wavelength_weights_eq (s c l : ℚ) (hne : l - s ≠ 0) :
    wavelength_weights s c l = .ok (1 - (c - s) / (l - s), (c - s) / (l - s)) := by
  simp only [wavelength_weights, if_neg hne]

/-- C4: for every wavelength triple with a nonzero denominator `long - short`
(the only case in which the Python division returns), `wavelength_weights`
returns `(a, b)` with `b = (center - short) / (long - short)` and `a = 1 - b`;
the particular values at `(1,2,3)` and `(1,1,2)` are checked in the witness. -/
theorem wavelength_weights_formula (s c l : ℚ) (hne : l - s ≠ 0) :
    wavelength_weights s c l = .ok (1 - (c - s) / (l - s), (c - s) / (l - s)) :=
  wavelength_weights_eq s c l hne

/-- Witness for C4: `wavelength_weights(1,2,3) = (0.5, 0.5)` and
`wavelength_weights(1,1,2) = (1, 0)`. -/
theorem wavelength_weights_formula_witness :
    wavelength_weights 1 2 3 = .ok (1/2, 1/2) ∧ wavelength_weights 1 1 2 = .ok (1, 0) := by
  constructor
  · rw [wavelength_weights_formula 1 2 3 (by norm_num)]
    norm_num
  · rw [wavelength_weights_formula 1 1 2 (by norm_num)]
    norm_num

/-- C5: for every triple with `short < center < long`, the returned pair
`(a, b)` satisfies `a + b = 1` and `b = (center - short) / (long - short)`
exactly. -/
theorem wavelength_weights_sum_one (s c l a b : ℚ) (h1 : s < c) (h2 : c < l)
    (hw : wavelength_weights s c l = .ok (a, b)) :
    a + b = 1 ∧ b = (c - s) / (l - s) := by
  have hne : l - s ≠ 0 := by
    have : s < l := lt_trans h1 h2
    intro h
    have : l = s := by linarith
    linarith
  rw [wavelength_weights_eq s c l hne] at hw
  simp only [Except.ok.injEq, Prod.mk.injEq] at hw
  refine ⟨?_, hw.2.symm⟩
  rw [← hw.1, ← hw.2]
  ring

/-- Witness for C5 at the triple `(1, 2, 3)`. -/
theorem wavelength_weights_sum_one_witness :
    (1:ℚ)/2 + 1/2 = 1 ∧ (1:ℚ)/2 = (2 - 1) / (3 - 1) :=
  wavelength_weights_sum_one 1 2 3 (1/2) (1/2) (by norm_num) (by norm_num)
    (by norm_num [wavelength_weights])

/-- C2 (counterexample): contrary to the claim, with `short == long` the
engine raises: `wavelength_weights(1, 2, 1)` performs Python float division by
zero, which raises `ZeroDivisionError` instead of producing a non-finite
value. -/
theorem wavelength_weights_degenerate_raises :
    wavelength_weights 1 2 1 = .error "ZeroDivisionError" := by
  norm_num [wavelength_weights]

/-- C2 (amended): with `short == long`, `wavelength_weights` raises
`ZeroDivisionError` (Python float division), and `band_depth_calculation`
propagates that exception; only a zero continuum in the final depth ratio
(numpy array division) produces non-finite results without raising: `inf`
when the center kernel reflectance is positive, `nan` when it is zero. -/
theorem degenerate_raises_and_zero_continuum_nonfinite :
    (∀ s c : ℚ, wavelength_weights s c s = .error "ZeroDivisionError") ∧
    band_depth_calculation [[2,1,2]] [1,2,3] ((1:ℚ), 2, 1) (1,1,1) =
      .error "ZeroDivisionError" ∧
    band_depth_calculation [[1,1,-1]] [1,2,3] ((1:ℚ), 2, 3) (1,1,1) = .ok [NpVal.inf] ∧
    band_depth_calculation [[0,0,0]] [1,2,3] ((1:ℚ), 2, 3) (1,1,1) = .ok [NpVal.nan] := by
  refine ⟨fun s c => by simp [wavelength_weights], ?_, ?_, ?_⟩
  · norm_num [band_depth_calculation, index, pySlice, npMedian, medianQ, sortQ, insertLe,
      interpolated_center_wavelength_reflectance, wavelength_weights, Except.map,
      Bind.bind, Except.bind, Pure.pure, Except.pure, Int.toNat,
      NpVal.div, NpVal.add, NpVal.smul, List.isEmpty]
  · norm_num [band_depth_calculation, index, pySlice, npMedian, medianQ, sortQ, insertLe,
      interpolated_center_wavelength_reflectance, wavelength_weights, Except.map,
      Bind.bind, Except.bind, Pure.pure, Except.pure, Int.toNat,
      NpVal.div, NpVal.add, NpVal.smul, List.isEmpty]
  · norm_num [band_depth_calculation, index, pySlice, npMedian, medianQ, sortQ, insertLe,
      interpolated_center_wavelength_reflectance, wavelength_weights, Except.map,
      Bind.bind, Except.bind, Pure.pure, Except.pure, Int.toNat,
      NpVal.div, NpVal.add, NpVal.smul, List.isEmpty]

/-- C3: a kernel window whose start underflows past index 0 is extracted with
the standard Python negative-slice semantics of the underlying array — a
negative slice start counts from the end of the array — rather than failing
fast or clamping. The second conjunct exercises this through
`band_depth_calculation`: on a 2-band grid, the short-wavelength window of
kernel size 3 at position 0 becomes the slice `[-1:2]`, which selects the
last element `9`, so the call succeeds and returns `7/9`. -/
theorem slice_negative_start_counts_from_end :
    (∀ (xs : List ℚ) (a b : ℤ), -(xs.length : ℤ) ≤ a → a < 0 →
      pySlice xs a b = pySlice xs ((xs.length : ℤ) + a) b) ∧
    band_depth_calculation [[7,9]] [1,2] ((1:ℚ), 1, 2) (3,1,1) = .ok [NpVal.num (7/9)] := by
  constructor
  · intro xs a b ha ha0
    have hstart :
        (if a < 0 then max ((xs.length : ℤ) + a) 0 else min a (xs.length : ℤ)) =
          (if (xs.length : ℤ) + a < 0 then
            max ((xs.length : ℤ) + ((xs.length : ℤ) + a)) 0
          else min ((xs.length : ℤ) + a) (xs.length : ℤ)) := by
      rw [if_pos ha0, if_neg (by omega), max_eq_left (by omega), min_eq_left (by omega)]
    simp only [pySlice]
    rw [hstart]
  · norm_num [band_depth_calculation, index, pySlice, npMedian, medianQ, sortQ, insertLe,
      interpolated_center_wavelength_reflectance, wavelength_weights, Except.map,
      Bind.bind, Except.bind, Pure.pure, Except.pure, Int.toNat,
      NpVal.div, NpVal.add, NpVal.smul, List.isEmpty]

/-- Witness for C3: the general negative-start law applied to the concrete
slice `[7,9][-1:2]`, together with the concrete band-depth run. -/
theorem slice_negative_start_counts_from_end_witness :
    pySlice [7,9] (-1) 2 = pySlice [7,9] (([(7:ℚ),9].length : ℤ) + -1) 2 ∧
    band_depth_calculation [[7,9]] [1,2] ((1:ℚ), 1, 2) (3,1,1) = .ok [NpVal.num (7/9)] :=
  ⟨slice_negative_start_counts_from_end.1 [7,9] (-1) 2 (by decide) (by decide),
   slice_negative_start_counts_from_end.2⟩

/-- C1: whenever the three wavelength lookups succeed (exact-match lookup at
positions `ps`, `pc`, `pl`), the kernel windows lie inside the grid, the
spectra are rectangular, and the wavelength triple is nondegenerate,
`band_depth_calculation` takes the median over the inclusive window
`[pos - k/2, pos + k/2]` of every spectrum to obtain the short, center and
long kernel reflectances, and returns per spectrum the center reflectance
divided by the linearly interpolated continuum
`a * short_ref + b * long_ref` with `b = (center-short)/(long-short)`,
`a = 1 - b`. -/
theorem band_depth_calculation_kernel_median
    (spectra : List (List ℚ)) (all_wavelengths : List ℚ)
    (sw cw lw : ℚ) (ks kc kl : ℕ) (ps pc pl : ℕ)
    (his : index all_wavelengths sw = .ok ps)
    (hic : index all_wavelengths cw = .ok pc)
    (hil : index all_wavelengths lw = .ok pl)
    (hrow : ∀ row ∈ spectra, row.length = all_wavelengths.length)
    (hbs1 : ks / 2 ≤ ps) (hbs2 : ps + ks / 2 < all_wavelengths.length)
    (hbc1 : kc / 2 ≤ pc) (hbc2 : pc + kc / 2 < all_wavelengths.length)
    (hbl1 : kl / 2 ≤ pl) (hbl2 : pl + kl / 2 < all_wavelengths.length)
    (hne : lw - sw ≠ 0) :
    band_depth_calculation spectra all_wavelengths (sw, cw, lw) (ks, kc, kl) =
      .ok (spectra.map fun row =>
        NpVal.div (npMedian ((row.drop (pc - kc / 2)).take (2 * (kc / 2) + 1)))
          (NpVal.add
            (NpVal.smul (1 - (cw - sw) / (lw - sw))
              (npMedian ((row.drop (ps - ks / 2)).take (2 * (ks / 2) + 1))))
            (NpVal.smul ((cw - sw) / (lw - sw))
              (npMedian ((row.drop (pl - kl / 2)).take (2 * (kl / 2) + 1)))))) := by
  simp only [band_depth_calculation, interpolated_center_wavelength_reflectance,
    wavelength_weights, his, hic, hil, except_ok_bind, hne, Bind.bind, Except.bind,
    Pure.pure, Except.pure, if_false, ite_false, eq_self_iff_true]
  rw [zipWith_map_same, zipWith_map_same]
  refine congrArg Except.ok (list_map_congr _ fun row hr => ?_)
  rw [pySlice_window row ps (ks / 2) hbs1 (by rw [hrow row hr]; exact hbs2),
    pySlice_window row pc (kc / 2) hbc1 (by rw [hrow row hr]; exact hbc2),
    pySlice_window row pl (kl / 2) hbl1 (by rw [hrow row hr]; exact hbl2)]

/-- Witness for C1: the particular run
`band_depth_calculation([[2,1,2]], (1,2,3), (1,2,3), (1,1,1)) = [0.5]`. -/
theorem band_depth_calculation_kernel_median_witness :
    band_depth_calculation [[2,1,2]] [1,2,3] ((1:ℚ), 2, 3) (1,1,1) = .ok [NpVal.num (1/2)] := by
  rw [band_depth_calculation_kernel_median [[2,1,2]] [1,2,3] 1 2 3 1 1 1 0 1 2
    (by norm_num [index, Except.map]) (by norm_num [index, Except.map])
    (by norm_num [index, Except.map])
    (by intro row hr; simp only [List.mem_singleton] at hr; rw [hr]; rfl)
    (by norm_num) (by norm_num) (by norm_num) (by norm_num) (by norm_num) (by norm_num)
    (by norm_num)]
  norm_num [npMedian, medianQ, sortQ, insertLe, NpVal.div, NpVal.add, NpVal.smul, List.isEmpty]

lemma index_first_match (w : ℚ) :
    ∀ (xs : List ℚ) (i : ℕ), index xs w = .ok i ↔
      xs[i]? = some w ∧ ∀ j < i, xs[j]? ≠ some w := by
  intro xs
  induction xs with
  | nil =>
    intro i
    simp [index]
  | cons x t ih =>
    intro i
    by_cases hx : x = w
    · subst hx
      simp only [index, if_pos rfl]
      constructor
      · intro h
        have hi : i = 0 := by
          have := congrArg (fun e => match e with | Except.ok n => n | _ => 37) h
          simpa using this.symm
        subst hi
        exact ⟨by simp, by intro j hj; omega⟩
      · rintro ⟨h1, h2⟩
        cases i with
        | zero => rfl
        | succ n =>
          exact absurd (by simp : (x :: t)[0]? = some x) (h2 0 (Nat.succ_pos n))
    · simp only [index, if_neg hx]
      cases i with
      | zero =>
        constructor
        · intro h
          cases e : index t w with
          | ok k => rw [e] at h; simp [Except.map] at h
          | error s => rw [e] at h; simp [Except.map] at h
        · rintro ⟨h1, _⟩
          simp only [List.getElem?_cons_zero, Option.some.injEq] at h1
          exact absurd h1 hx
      | succ n =>
        constructor
        · intro h
          have ht : index t w = .ok n := by
            cases e : index t w with
            | ok k =>
              rw [e] at h
              simp only [Except.map, Except.ok.injEq] at h
              rw [show k = n by omega]
            | error s => rw [e] at h; simp [Except.map] at h
          obtain ⟨h1, h2⟩ := (ih n).mp ht
          refine ⟨by simpa using h1, ?_⟩
          intro j hj
          cases j with
          | zero =>
            simp only [List.getElem?_cons_zero]
            intro he
            injection he with he2
            exact hx he2
          | succ m =>
            simp only [List.getElem?_cons_succ]
            exact h2 m (by omega)
        · rintro ⟨h1, h2⟩
          have ht : index t w = .ok n := by
            refine (ih n).mpr ⟨by simpa using h1, ?_⟩
            intro m hm
            have := h2 (m + 1) (by omega)
            simpa using this
          rw [ht]
          rfl

theorem index_exact_first_match_and_failure_not_recovered :
    (∀ (xs : List ℚ) (w : ℚ) (i : ℕ), index xs w = .ok i ↔
      xs[i]? = some w ∧ ∀ j < i, xs[j]? ≠ some w) ∧
    (∀ (spectra : List (List ℚ)) (wl : List ℚ) (sw cw lw : ℚ) (ks : ℕ × ℕ × ℕ),
      sw ∉ wl ∨ cw ∉ wl ∨ lw ∉ wl →
      band_depth_calculation spectra wl (sw, cw, lw) ks = .error "ValueError") := by
  constructor
  · intro xs w i
    exact index_first_match w xs i
  · intro spectra wl sw cw lw ks h
    by_cases hsw : sw ∈ wl
    · obtain ⟨i0, hi0⟩ := index_of_mem hsw
      by_cases hcw : cw ∈ wl
      · obtain ⟨i1, hi1⟩ := index_of_mem hcw
        by_cases hlw : lw ∈ wl
        · rcases h with h | h | h
          · exact absurd hsw h
          · exact absurd hcw h
          · exact absurd hlw h
        · simp only [band_depth_calculation, hi0, hi1, index_of_not_mem hlw,
            except_ok_bind, except_error_bind, Bind.bind, Except.bind]
      · simp only [band_depth_calculation, hi0, index_of_not_mem hcw,
          except_ok_bind, except_error_bind, Bind.bind, Except.bind]
    · simp only [band_depth_calculation, index_of_not_mem hsw,
        except_error_bind, Bind.bind, Except.bind]

theorem index_exact_first_match_witness :
    (index [(1:ℚ),2,3] 2 = .ok 1 ↔
      ([(1:ℚ),2,3])[1]? = some 2 ∧ ∀ j < 1, ([(1:ℚ),2,3])[j]? ≠ some 2) ∧
    band_depth_calculation [[2,1,2]] [1,2,3] ((7:ℚ), 2, 3) (1,1,1) = .error "ValueError" :=
  ⟨index_exact_first_match_and_failure_not_recovered.1 [1,2,3] 2 1,
   index_exact_first_match_and_failure_not_recovered.2 [[2,1,2]] [1,2,3] 7 2 3 (1,1,1)
     (Or.inl (by norm_num))⟩

theorem interpolated_center_reflectance_elementwise
    (short_ref long_ref : List NpVal) (s c l : ℚ) (hne : l - s ≠ 0) :
    interpolated_center_wavelength_reflectance short_ref (s, c, l) long_ref =
      .ok (List.zipWith (fun x y =>
        NpVal.add (NpVal.smul (1 - (c - s) / (l - s)) x)
          (NpVal.smul ((c - s) / (l - s)) y)) short_ref long_ref) ∧
    (short_ref.length = long_ref.length →
      (List.zipWith (fun x y =>
        NpVal.add (NpVal.smul (1 - (c - s) / (l - s)) x)
          (NpVal.smul ((c - s) / (l - s)) y)) short_ref long_ref).length =
        short_ref.length) := by
  constructor
  · simp only [interpolated_center_wavelength_reflectance, wavelength_weights, hne,
      except_ok_bind, Bind.bind, Except.bind, Pure.pure, Except.pure, if_false, ite_false]
  · intro hlen
    rw [List.length_zipWith, hlen, min_self]

theorem interpolated_center_reflectance_elementwise_witness :
    interpolated_center_wavelength_reflectance [NpVal.num 1] ((1:ℚ), 2, 3) [NpVal.num 3] =
      .ok [NpVal.num 2] := by
  rw [(interpolated_center_reflectance_elementwise [NpVal.num 1] [NpVal.num 3] 1 2 3
    (by norm_num)).1]
  norm_num [List.zipWith, NpVal.add, NpVal.smul]

lemma slideFilter_length (f : List ℚ → ℚ) (w : ℕ) (xs : List ℚ) :
    (slideFilter f w xs).length = xs.length := by
  simp [slideFilter]

lemma getD_map_default {α β : Type} (f : α → β) (d : α) :
    ∀ (l : List α) (i : ℕ), (l.map f).getD i (f d) = f (l.getD i d) := by
  intro l
  induction l with
  | nil => intro i; rfl
  | cons a t ih =>
    intro i
    cases i with
    | zero => rfl
    | succ n => exact ih n

lemma slideFilter_getD_edge (f : List ℚ → ℚ) (w : ℕ) (xs : List ℚ) (k : ℕ)
    (h : k < w / 2 ∨ xs.length ≤ k + w / 2) :
    (slideFilter f w xs).getD k 0 = xs.getD k 0 := by
  by_cases hk : k < xs.length
  · have h1 : (slideFilter f w xs)[k]? =
        some (if w / 2 ≤ k ∧ k + w / 2 < xs.length then
          f ((xs.drop (k - w / 2)).take (2 * (w / 2) + 1)) else xs.getD k 0) := by
      simp only [slideFilter, List.getElem?_map, List.getElem?_range hk]
      rfl
    have hcond : ¬ (w / 2 ≤ k ∧ k + w / 2 < xs.length) := by omega
    rw [List.getD_eq_getElem?_getD, h1, if_neg hcond]
    rfl
  · rw [List.getD_eq_default _ _ (by simpa [slideFilter_length] using Nat.le_of_not_lt hk),
      List.getD_eq_default _ _ (Nat.le_of_not_lt hk)]

lemma shape_map_filter (g : List ℚ → List ℚ) (hlen : ∀ xs, (g xs).length = xs.length)
    (cube : List (List (List ℚ))) :
    (cube.map fun row => row.map g).map (fun r => r.map List.length) =
      cube.map (fun r => r.map List.length) := by
  rw [List.map_map]
  refine list_map_congr _ fun row _ => ?_
  simp only [Function.comp_apply, List.map_map]
  refine list_map_congr _ fun spec _ => ?_
  simp only [Function.comp_apply, hlen]

theorem moving_filters_shape_and_edge_invariance
    (cube : List (List (List ℚ))) (window : ℕ) :
    ((moving_median_filter cube window).map (fun r => r.map List.length) =
       cube.map (fun r => r.map List.length) ∧
     (moving_mean_filter cube window).map (fun r => r.map List.length) =
       cube.map (fun r => r.map List.length)) ∧
    ∀ i j k, k < window / 2 ∨ ((cube.getD i []).getD j []).length ≤ k + window / 2 →
      ((((moving_median_filter cube window).getD i []).getD j []).getD k 0 =
         (((cube.getD i []).getD j []).getD k 0) ∧
       (((moving_mean_filter cube window).getD i []).getD j []).getD k 0 =
         (((cube.getD i []).getD j []).getD k 0)) := by
  have key : ∀ (f : List ℚ → ℚ) (i j k : ℕ),
      k < window / 2 ∨ ((cube.getD i []).getD j []).length ≤ k + window / 2 →
      (((cube.map fun row => row.map (slideFilter f window)).getD i []).getD j []).getD k 0 =
        (((cube.getD i []).getD j []).getD k 0) := by
    intro f i j k hk
    have e1 : (cube.map fun row => row.map (slideFilter f window)).getD i [] =
        (cube.getD i []).map (slideFilter f window) :=
      getD_map_default (fun row => row.map (slideFilter f window)) [] cube i
    have e2 : ((cube.getD i []).map (slideFilter f window)).getD j [] =
        slideFilter f window ((cube.getD i []).getD j []) :=
      getD_map_default (slideFilter f window) [] (cube.getD i []) j
    rw [e1, e2, slideFilter_getD_edge f window _ k hk]
  refine ⟨⟨shape_map_filter _ (slideFilter_length medianQ window) cube,
    shape_map_filter _ (slideFilter_length meanQ window) cube⟩, ?_⟩
  intro i j k hk
  exact ⟨key medianQ i j k hk, key meanQ i j k hk⟩

theorem moving_filters_shape_and_edge_invariance_witness :
    ((moving_median_filter [[[1,2,3]]] 3).map (fun r => r.map List.length) =
       [[[(1:ℚ),2,3]]].map (fun r => r.map List.length) ∧
     (moving_mean_filter [[[1,2,3]]] 3).map (fun r => r.map List.length) =
       [[[(1:ℚ),2,3]]].map (fun r => r.map List.length)) ∧
    ((((moving_median_filter [[[1,2,3]]] 3).getD 0 []).getD 0 []).getD 0 0 =
       ((([[[(1:ℚ),2,3]]].getD 0 []).getD 0 []).getD 0 0) ∧
     (((moving_mean_filter [[[1,2,3]]] 3).getD 0 []).getD 0 []).getD 0 0 =
       ((([[[(1:ℚ),2,3]]].getD 0 []).getD 0 []).getD 0 0)) :=
  ⟨(moving_filters_shape_and_edge_invariance [[[1,2,3]]] 3).1,
   (moving_filters_shape_and_edge_invariance [[[1,2,3]]] 3).2 0 0 0 (Or.inl (by norm_num))⟩

lemma isNonneg_add {a b : NpVal} (ha : a.isNonneg = true) (hb : b.isNonneg = true) :
    (NpVal.add a b).isNonneg = true := by
  cases a <;> cases b <;>
    simp_all only [NpVal.isNonneg, NpVal.add, decide_eq_true_eq]
  exact add_nonneg ha hb

lemma isNonneg_clamp_oneSub {x : NpVal} (hx : x ≠ NpVal.nan) :
    (clampVal (NpVal.sub (NpVal.num 1) x)).isNonneg = true := by
  cases x with
  | num q =>
    simp only [NpVal.sub, clampVal, NpVal.lt]
    by_cases h : (1 : ℚ) - q < 0
    · simp [h, NpVal.isNonneg]
    · simp [h, NpVal.isNonneg]
      linarith
  | inf => simp [NpVal.sub, clampVal, NpVal.lt, NpVal.isNonneg]
  | negInf => simp [NpVal.sub, clampVal, NpVal.lt, NpVal.isNonneg]
  | nan => exact absurd rfl hx

/-- C10: whenever `hyd_femg_clay_index_calculation` succeeds and none of the
seven intermediate band-depth evaluations produces a NaN entry, every element
of the returned index array is nonnegative, because each of the seven
`1 - band_depth` terms is clamped below at zero before the elementwise sum. -/
theorem hyd_femg_clay_index_nonneg
    (spectra : List (List ℚ)) (wavelengths : List ℚ) (ys : List NpVal)
    (hok : hyd_femg_clay_index_calculation spectra wavelengths = .ok ys)
    (hnn : ∀ bdw ks, (bdw, ks) ∈ hydConfigs →
      noNan (band_depth_calculation spectra wavelengths bdw ks) = true) :
    ∀ y ∈ ys, NpVal.isNonneg y = true := by
  simp only [hyd_femg_clay_index_calculation] at hok
  cases e1 : band_depth_calculation spectra wavelengths (1.33578, 1.41459, 1.55264) (5, 3, 5) with
  | error s => rw [e1] at hok; exact absurd hok (by simp [except_error_bind])
  | ok v1 =>
  simp only [e1, except_ok_bind] at hok
  cases e2 : band_depth_calculation spectra wavelengths (1.86212, 1.92146, 2.07985) (5, 5, 5) with
  | error s => rw [e2] at hok; exact absurd hok (by simp [except_error_bind])
  | ok v2 =>
  simp only [e2, except_ok_bind] at hok
  cases e3 : band_depth_calculation spectra wavelengths (2.15251, 2.28472, 2.34426) (3, 5, 3) with
  | error s => rw [e3] at hok; exact absurd hok (by simp [except_error_bind])
  | ok v3 =>
  simp only [e3, except_ok_bind] at hok
  cases e4 : band_depth_calculation spectra wavelengths (2.15251, 2.30456, 2.34426) (3, 3, 3) with
  | error s => rw [e4] at hok; exact absurd hok (by simp [except_error_bind])
  | ok v4 =>
  simp only [e4, except_ok_bind] at hok
  cases e5 : band_depth_calculation spectra wavelengths (2.15251, 2.32441, 2.34426) (3, 3, 3) with
  | error s => rw [e5] at hok; exact absurd hok (by simp [except_error_bind])
  | ok v5 =>
  simp only [e5, except_ok_bind] at hok
  cases e6 : band_depth_calculation spectra wavelengths (2.34426, 2.38396, 2.4303) (3, 3, 3) with
  | error s => rw [e6] at hok; exact absurd hok (by simp [except_error_bind])
  | ok v6 =>
  simp only [e6, except_ok_bind] at hok
  cases e7 : band_depth_calculation spectra wavelengths (2.34426, 2.3972, 2.4303) (3, 3, 3) with
  | error s => rw [e7] at hok; exact absurd hok (by simp [except_error_bind])
  | ok v7 =>
  simp only [e7, except_ok_bind, Pure.pure, Except.pure, Except.ok.injEq] at hok
  subst hok
  have hno : ∀ (v : List NpVal) (x : NpVal), x ∈ v →
      noNan (Except.ok v : Except String (List NpVal)) = true → x ≠ NpVal.nan := by
    intro v x hxv hv
    simp only [noNan, decide_eq_true_eq] at hv
    intro hq
    subst hq
    exact hv hxv
  have k1 := hnn _ _ (show ((1.33578, 1.41459, 1.55264), ((5:ℕ), (3:ℕ), (5:ℕ))) ∈ hydConfigs by
    simp [hydConfigs])
  rw [e1] at k1
  have k2 := hnn _ _ (show ((1.86212, 1.92146, 2.07985), ((5:ℕ), (5:ℕ), (5:ℕ))) ∈ hydConfigs by
    simp [hydConfigs])
  rw [e2] at k2
  have k3 := hnn _ _ (show ((2.15251, 2.28472, 2.34426), ((3:ℕ), (5:ℕ), (3:ℕ))) ∈ hydConfigs by
    simp [hydConfigs])
  rw [e3] at k3
  have k4 := hnn _ _ (show ((2.15251, 2.30456, 2.34426), ((3:ℕ), (3:ℕ), (3:ℕ))) ∈ hydConfigs by
    simp [hydConfigs])
  rw [e4] at k4
  have k5 := hnn _ _ (show ((2.15251, 2.32441, 2.34426), ((3:ℕ), (3:ℕ), (3:ℕ))) ∈ hydConfigs by
    simp [hydConfigs])
  rw [e5] at k5
  have k6 := hnn _ _ (show ((2.34426, 2.38396, 2.4303), ((3:ℕ), (3:ℕ), (3:ℕ))) ∈ hydConfigs by
    simp [hydConfigs])
  rw [e6] at k6
  have k7 := hnn _ _ (show ((2.34426, 2.3972, 2.4303), ((3:ℕ), (3:ℕ), (3:ℕ))) ∈ hydConfigs by
    simp [hydConfigs])
  rw [e7] at k7
  intro y hy
  obtain ⟨a6, ha6, t7, ht7, rfl⟩ := mem_zipWith hy
  obtain ⟨a5, ha5, t6, ht6, rfl⟩ := mem_zipWith ha6
  obtain ⟨a4, ha4, t5, ht5, rfl⟩ := mem_zipWith ha5
  obtain ⟨a3, ha3, t4, ht4, rfl⟩ := mem_zipWith ha4
  obtain ⟨a2, ha2, t3, ht3, rfl⟩ := mem_zipWith ha3
  obtain ⟨t1, ht1, t2, ht2, rfl⟩ := mem_zipWith ha2
  simp only [clampNeg, List.map_map, List.mem_map, Function.comp_apply] at ht1 ht2 ht3 ht4 ht5 ht6 ht7
  obtain ⟨x1, hx1, rfl⟩ := ht1
  obtain ⟨x2, hx2, rfl⟩ := ht2
  obtain ⟨x3, hx3, rfl⟩ := ht3
  obtain ⟨x4, hx4, rfl⟩ := ht4
  obtain ⟨x5, hx5, rfl⟩ := ht5
  obtain ⟨x6, hx6, rfl⟩ := ht6
  obtain ⟨x7, hx7, rfl⟩ := ht7
  exact isNonneg_add
    (isNonneg_add
      (isNonneg_add
        (isNonneg_add
          (isNonneg_add
            (isNonneg_add (isNonneg_clamp_oneSub (hno v1 x1 hx1 k1))
              (isNonneg_clamp_oneSub (hno v2 x2 hx2 k2)))
            (isNonneg_clamp_oneSub (hno v3 x3 hx3 k3)))
          (isNonneg_clamp_oneSub (hno v4 x4 hx4 k4)))
        (isNonneg_clamp_oneSub (hno v5 x5 hx5 k5)))
      (isNonneg_clamp_oneSub (hno v6 x6 hx6 k6)))
    (isNonneg_clamp_oneSub (hno v7 x7 hx7 k7))

set_option maxHeartbeats 1000000 in
lemma hyd_eval_14 :
    band_depth_calculation hydOnes hydGrid (1.33578, 1.41459, 1.55264) (5, 3, 5) =
      .ok [NpVal.num 1] := by
  norm_num [band_depth_calculation, hydOnes, hydGrid, index, pySlice, npMedian, medianQ,
    sortQ, insertLe, interpolated_center_wavelength_reflectance, wavelength_weights,
    Except.map, Bind.bind, Except.bind, Pure.pure, Except.pure, Int.toNat,
    NpVal.div, NpVal.add, NpVal.smul, List.isEmpty]

set_option maxHeartbeats 1000000 in
lemma hyd_eval_19 :
    band_depth_calculation hydOnes hydGrid (1.86212, 1.92146, 2.07985) (5, 5, 5) =
      .ok [NpVal.num 1] := by
  norm_num [band_depth_calculation, hydOnes, hydGrid, index, pySlice, npMedian, medianQ,
    sortQ, insertLe, interpolated_center_wavelength_reflectance, wavelength_weights,
    Except.map, Bind.bind, Except.bind, Pure.pure, Except.pure, Int.toNat,
    NpVal.div, NpVal.add, NpVal.smul, List.isEmpty]

set_option maxHeartbeats 1000000 in
lemma hyd_eval_229 :
    band_depth_calculation hydOnes hydGrid (2.15251, 2.28472, 2.34426) (3, 5, 3) =
      .ok [NpVal.num 1] := by
  norm_num [band_depth_calculation, hydOnes, hydGrid, index, pySlice, npMedian, medianQ,
    sortQ, insertLe, interpolated_center_wavelength_reflectance, wavelength_weights,
    Except.map, Bind.bind, Except.bind, Pure.pure, Except.pure, Int.toNat,
    NpVal.div, NpVal.add, NpVal.smul, List.isEmpty]

set_option maxHeartbeats 1000000 in
lemma hyd_eval_231 :
    band_depth_calculation hydOnes hydGrid (2.15251, 2.30456, 2.34426) (3, 3, 3) =
      .ok [NpVal.num 1] := by
  norm_num [band_depth_calculation, hydOnes, hydGrid, index, pySlice, npMedian, medianQ,
    sortQ, insertLe, interpolated_center_wavelength_reflectance, wavelength_weights,
    Except.map, Bind.bind, Except.bind, Pure.pure, Except.pure, Int.toNat,
    NpVal.div, NpVal.add, NpVal.smul, List.isEmpty]

set_option maxHeartbeats 1000000 in
lemma hyd_eval_232 :
    band_depth_calculation hydOnes hydGrid (2.15251, 2.32441, 2.34426) (3, 3, 3) =
      .ok [NpVal.num 1] := by
  norm_num [band_depth_calculation, hydOnes, hydGrid, index, pySlice, npMedian, medianQ,
    sortQ, insertLe, interpolated_center_wavelength_reflectance, wavelength_weights,
    Except.map, Bind.bind, Except.bind, Pure.pure, Except.pure, Int.toNat,
    NpVal.div, NpVal.add, NpVal.smul, List.isEmpty]

set_option maxHeartbeats 1000000 in
lemma hyd_eval_238 :
    band_depth_calculation hydOnes hydGrid (2.34426, 2.38396, 2.4303) (3, 3, 3) =
      .ok [NpVal.num 1] := by
  norm_num [band_depth_calculation, hydOnes, hydGrid, index, pySlice, npMedian, medianQ,
    sortQ, insertLe, interpolated_center_wavelength_reflectance, wavelength_weights,
    Except.map, Bind.bind, Except.bind, Pure.pure, Except.pure, Int.toNat,
    NpVal.div, NpVal.add, NpVal.smul, List.isEmpty]

set_option maxHeartbeats 1000000 in
lemma hyd_eval_240 :
    band_depth_calculation hydOnes hydGrid (2.34426, 2.3972, 2.4303) (3, 3, 3) =
      .ok [NpVal.num 1] := by
  norm_num [band_depth_calculation, hydOnes, hydGrid, index, pySlice, npMedian, medianQ,
    sortQ, insertLe, interpolated_center_wavelength_reflectance, wavelength_weights,
    Except.map, Bind.bind, Except.bind, Pure.pure, Except.pure, Int.toNat,
    NpVal.div, NpVal.add, NpVal.smul, List.isEmpty]

lemma hyd_eval_ones :
    hyd_femg_clay_index_calculation hydOnes hydGrid = .ok [NpVal.num 0] := by
  simp only [hyd_femg_clay_index_calculation, hyd_eval_14, hyd_eval_19, hyd_eval_229,
    hyd_eval_231, hyd_eval_232, hyd_eval_238, hyd_eval_240, except_ok_bind]
  norm_num [clampNeg, clampVal, NpVal.sub, NpVal.lt, NpVal.add, List.zipWith,
    List.map_cons, List.map_nil, Pure.pure, Except.pure]

/-- Witness for C10: on a constant unit spectrum over a grid containing all
fourteen wavelengths, every band depth is `1`, all seven terms clamp to `0`,
the index is `[0]`, and `0` is nonnegative. -/
theorem hyd_femg_clay_index_nonneg_witness :
    hyd_femg_clay_index_calculation hydOnes hydGrid = .ok [NpVal.num 0] ∧
    NpVal.isNonneg (NpVal.num 0) = true := by
  refine ⟨hyd_eval_ones, ?_⟩
  refine hyd_femg_clay_index_nonneg hydOnes hydGrid [NpVal.num 0] hyd_eval_ones ?_
    (NpVal.num 0) (List.mem_singleton.mpr rfl)
  intro bdw ks hmem
  simp only [hydConfigs, List.mem_cons, List.not_mem_nil, or_false] at hmem
  rcases hmem with h | h | h | h | h | h | h <;>
    (rw [Prod.mk.injEq] at h; obtain ⟨rfl, rfl⟩ := h)
  · rw [hyd_eval_14]; decide
  · rw [hyd_eval_19]; decide
  · rw [hyd_eval_229]; decide
  · rw [hyd_eval_231]; decide
  · rw [hyd_eval_232]; decide
  · rw [hyd_eval_238]; decide
  · rw [hyd_eval_240]; decide
